import Mathlib

/-!
Verification of the JJM reconciliation/ETL pipeline (`src/backend/main.py`,
function `run_etl_pipeline` and its helpers) against its design document.

The pipeline is embedded shallowly:
* a tabular cell that the code only ever passes to `float(...)` is modelled by
  `FinCell` (missing / coercible number / a value on which `float` raises);
* a grievance date cell is modelled by the outcome of `pd.to_datetime` on it
  (`DateVal`: missing ⇒ `NaT`, parseable ⇒ an integer day index, otherwise the
  parse raises).  The code never inspects dates beyond parsing and `<`, and
  comparisons against `NaT` are `False` in pandas;
* numbers are rationals (`ℚ`); `round(x, 2)` is modelled by `pyRound2`
  (integer rounding of `100·x`; the tie-breaking rule differs from Python's
  round-half-to-even only on exact ties, which no statement below touches);
* `pd.merge(..., how='outer')` is `outerMerge`: every left row is paired with
  each matching right row, a left row without a match keeps missing right
  fields, and unmatched right rows are appended;
* the three Python exceptions the pipeline itself can raise (`KeyError` for
  the missing mandatory source, `ValueError` from the uncaught `float(...)` at
  the Column Mismatch check, and `UnboundLocalError` from the gsda-absent
  districts branch, which assigns into the local `unified_districts` before it
  is ever bound) become the `Except` error channel `PipeError`.
-/

namespace JJM

/-- A raw value in one of the two expenditure columns of the financial report:
missing (`NaN`/empty), a value `float(...)` coerces to `q`, or a value on which
`float(...)` raises `ValueError`. -/
inductive FinCell where
  | null : FinCell
  | num : ℚ → FinCell
  | bad : FinCell
deriving DecidableEq, Repr

/-- The coercion performed by `clean_financials`
(`float(x) if pd.notnull(x) else 0.0`): missing values become `0.0`,
uncoercible values raise (`none`). -/
def FinCell.coerce0 : FinCell → Option ℚ
  | .null => some 0
  | .num q => some q
  | .bad => none

/-- The helper `clean_financials(row)` from `main.py`: coerce both expenditure fields
(missing ⇒ 0.0); any coercion failure is caught by the bare `except` and
yields `(0.0, 0.0)`; otherwise swap the pair when `lakhs > 1000 and act < 1000`. -/
def clean_financials (actCell lakhsCell : FinCell) : ℚ × ℚ :=
  match actCell.coerce0, lakhsCell.coerce0 with
  | some act, some lakhs =>
      if lakhs > 1000 ∧ act < 1000 then (lakhs, act) else (act, lakhs)
  | _, _ => (0, 0)

/-- Python's `str.lower()` (per-character lowercasing; the sources are
ASCII).  Defined on the character list directly so that it is structurally
recursive. -/
def pyLower (s : String) : String := ⟨s.data.map Char.toLower⟩

/-- The helper `determine_status(row)` from `main.py` (the row's `Status`,
`Physical_Progress` and `Cleaned_Expenditure_INR` after the fill pass;
`row.get` defaults equal the fill values, so the filled fields suffice). -/
def determine_status (status : String) (phy finMjp : ℚ) : String :=
  let st := pyLower status
  if st = "completed" ∧ phy = 0 then "DATA CONFLICT"
  else if st = "-" ∨ st = "nan" then
    if phy > 90 then "Completed (ZP)"
    else if phy > 0 then "Ongoing (ZP)"
    else if finMjp > 0 then "Financial Only"
    else "Unknown"
  else status

/-- The result of `pd.to_datetime` on a grievance date cell: a missing cell
parses to `NaT` (all of whose comparisons are `False`), a well-formed date to a
point on the timeline, and anything else raises. -/
inductive DateVal where
  | missing : DateVal
  | day : ℤ → DateVal
  | bad : DateVal
deriving DecidableEq, Repr

/-- A row of the scheme master (`imis_schemes`), after the
`IMIS_ID → Scheme_ID` rename. -/
structure ImisRow where
  schemeId : String
  district : Option String
  schemeName : Option String
  status : Option String
  completionDate : Option String
deriving DecidableEq, Repr

/-- A row of the local progress table (`zp`). -/
structure ZpRow where
  schemeId : String
  district : Option String
  physicalProgress : Option ℚ
  financialProgress : Option ℚ
  lastUpdated : Option String
deriving DecidableEq, Repr

/-- A row of the financial report (`mjp`).  `Transaction_Date` is never read
by the pipeline and is omitted. -/
structure MjpRow where
  schemeCode : String
  district : String
  expenditureActuals : FinCell
  expenditureLakhs : FinCell
deriving DecidableEq, Repr

/-- A row of the water-quality table (`gsda`). -/
structure GsdaRow where
  stateName : String
  districtName : String
  samplesTested : ℚ
  contaminatedSamples : ℚ
deriving DecidableEq, Repr

/-- The water-quality table together with whether it has a `State_Name`
column at all (`'State_Name' in df_gsda.columns`). -/
structure GsdaTable where
  hasStateName : Bool
  rows : List GsdaRow
deriving DecidableEq, Repr

/-- A row of the grievance table (`pgrs`). -/
structure PgrsRow where
  ticketId : String
  district : String
  issue : String
  dateReported : DateVal
  dateResolved : DateVal
deriving DecidableEq, Repr

/-- The input mapping handed to `run_etl_pipeline`: each of the six logical
sources is present or absent.  `imis_tap` is never read by the pipeline, so
only its presence is recorded. -/
structure Dfs where
  imisTap : Bool
  imisSchemes : Option (List ImisRow)
  zp : Option (List ZpRow)
  mjp : Option (List MjpRow)
  gsda : Option GsdaTable
  pgrs : Option (List PgrsRow)
deriving DecidableEq, Repr

/-- One anomaly record appended by the detection checks. -/
structure Anomaly where
  schemeId : String
  issueType : String
  severity : String
  description : String
deriving DecidableEq, Repr

/-- Python's `round(x, 2)` over the rationals (ties rounded half-up rather
than half-to-even; no statement below depends on a tie). -/
def pyRound2 (q : ℚ) : ℚ := (round (q * 100) : ℤ) / 100

/-- The helper `calc_rate(row)` from `main.py` (fields of a unified-district row after
`fillna(0)`). -/
def calc_rate (samplesTested contaminatedSamples : ℚ) : ℚ :=
  if samplesTested > 0 then pyRound2 (contaminatedSamples / samplesTested * 100)
  else 0

/-- The three Python exceptions `run_etl_pipeline` itself can raise: the
`KeyError` on `dfs['imis_schemes']` when the mandatory source is absent, the
`ValueError` from the uncaught `float(row['Expenditure_Actuals'])` in the
Column Mismatch loop, and the `UnboundLocalError` at `main.py` line 200: when
the `gsda` source is absent, the else branch of the districts logic assigns
into `unified_districts`, a local name bound only in the gsda-present branch. -/
inductive PipeError where
  | missingCriticalSource : PipeError
  | valueError : PipeError
  | unboundLocalError : PipeError
deriving DecidableEq, Repr

/-- The values of `STATE_MAPPING` in `main.py` (as a set: the dict's values
repeat "Andaman & Nicobar Islands"). -/
def stateMappingValues : List String := ["Andaman & Nicobar Islands", "Maharashtra"]

/-- The Naming Convention check (`main.py` lines 103–108): one Medium anomaly
per water-quality row whose `State_Name` is not a canonical value; skipped
entirely when the source or its `State_Name` column is absent. -/
def namingAnoms (dfs : Dfs) : List Anomaly :=
  match dfs.gsda with
  | none => []
  | some g =>
    if g.hasStateName then
      (g.rows.filter (fun r => !(stateMappingValues.contains r.stateName))).map
        (fun r => ⟨"N/A", "Naming Convention", "Medium",
          "Non-standard State: '" ++ r.stateName ++ "'"⟩)
    else []

/-- The join `pd.merge(L, R, on=key, how='outer')`: every left row paired with each
matching right row in order (a left row without a match keeps missing right
fields), followed by the unmatched right rows. -/
def outerMerge (kl : α → String) (kr : β → String)
    (mk : α → Option β → γ) (mkRight : β → γ)
    (L : List α) (R : List β) : List γ :=
  (L.flatMap fun l =>
    match R.filter (fun r => kr r == kl l) with
    | [] => [mk l none]
    | ms => ms.map (fun r => mk l (some r))) ++
  ((R.filter (fun r => L.all fun l => !(kl l == kr r))).map mkRight)

/-- A row of `merged_check` (`main.py` line 115), restricted to the fields the
Sync Conflict / Ghost Asset checks read. -/
structure CheckRow where
  schemeId : String
  status : Option String
  physicalProgress : Option ℚ
  financialProgress : Option ℚ
deriving DecidableEq, Repr

/-- The outer join of the scheme master and the progress table used by the
Sync Conflict / Ghost Asset checks. -/
def checkRows (irows : List ImisRow) (zrows : List ZpRow) : List CheckRow :=
  outerMerge (·.schemeId) (·.schemeId)
    (fun i z? => match z? with
      | some z => ⟨i.schemeId, i.status, z.physicalProgress, z.financialProgress⟩
      | none => ⟨i.schemeId, i.status, none, none⟩)
    (fun z => ⟨z.schemeId, none, z.physicalProgress, z.financialProgress⟩)
    irows zrows

/-- The body of the loop at `main.py` lines 116–124: for one joined row, the
Sync Conflict anomaly (if any) followed by the Ghost Asset anomaly (if any).
`status` is lowercased with `""` for a missing value, a missing
`Physical_Progress` counts as 0, and a missing `Financial_Progress` is `NaN`,
whose `> 0` comparison is `False`. -/
def syncGhostRow (r : CheckRow) : List Anomaly :=
  let status := match r.status with | some s => pyLower s | none => ""
  let phy := r.physicalProgress.getD 0
  let finPos : Bool := match r.financialProgress with | some v => v > 0 | none => false
  (if status = "completed" ∧ phy = 0 then
    [⟨r.schemeId, "Sync Conflict", "Critical", "IMIS Complete vs ZP Pending"⟩]
  else []) ++
  (if phy = 0 ∧ finPos then
    [⟨r.schemeId, "Ghost Asset", "High",
      "Fin Progress " ++ toString (r.financialProgress.getD 0) ++
        "% without Physical Progress"⟩]
  else [])

/-- The Sync Conflict / Ghost Asset block (`main.py` lines 113–124), run only
when the `zp` source is present. -/
def syncGhostAnoms (irows : List ImisRow) : Option (List ZpRow) → List Anomaly
  | none => []
  | some zrows => (checkRows irows zrows).flatMap syncGhostRow

/-- One iteration of the Column Mismatch loop (`main.py` lines 130–132).
`float(row['Expenditure_Actuals'])` is applied to the raw cell with no
`try`: an uncoercible value raises `ValueError`; a missing one gives `NaN`,
whose `> 1.0` comparison is `False`. -/
def columnMismatchRow (r : MjpRow) : Except PipeError (Option Anomaly) :=
  match r.expenditureActuals with
  | .bad => .error .valueError
  | .null => .ok none
  | .num q =>
    .ok (if |q - (clean_financials r.expenditureActuals r.expenditureLakhs).1| > 1 then
          some ⟨r.schemeCode, "Column Mismatch", "Medium",
            "Financial Columns Swapped. Auto-corrected."⟩
        else none)

/-- The Column Mismatch loop over the financial report; it aborts at the
first row whose `Expenditure_Actuals` does not coerce. -/
def columnAnoms : List MjpRow → Except PipeError (List Anomaly)
  | [] => .ok []
  | r :: rs =>
    match columnMismatchRow r with
    | .error e => .error e
    | .ok a? =>
      match columnAnoms rs with
      | .error e => .error e
      | .ok rest => .ok (match a? with | some a => a :: rest | none => rest)

/-- The Column Mismatch block, run only when the `mjp` source is present. -/
def columnAnomsOf : Option (List MjpRow) → Except PipeError (List Anomaly)
  | none => .ok []
  | some rows => columnAnoms rows

/-- One iteration of the Logical Data Error loop (`main.py` lines 138–142):
both dates are parsed inside a `try` whose `except` skips the row, and a
comparison involving `NaT` is `False`. -/
def logicalRow (r : PgrsRow) : Option Anomaly :=
  match r.dateResolved, r.dateReported with
  | .day a, .day b =>
    if a < b then
      some ⟨r.ticketId, "Logical Data Error", "Low", "Ticket Resolved before Reported."⟩
    else none
  | _, _ => none

/-- The Logical Data Error block, run only when the `pgrs` source is present. -/
def logicalAnoms : Option (List PgrsRow) → List Anomaly
  | none => []
  | some rows => rows.filterMap logicalRow

/-- The distinct elements of a list in order of first occurrence, as
`pandas.unique` / the group keys of `groupby`.  (`groupby` additionally sorts
the keys; no statement below depends on row order of aggregated tables.) -/
def uniqAux [DecidableEq α] (seen : List α) : List α → List α
  | [] => []
  | x :: xs => if x ∈ seen then uniqAux seen xs else x :: uniqAux (x :: seen) xs

/-- See `uniqAux`. -/
def uniqueList [DecidableEq α] (l : List α) : List α := uniqAux [] l

/-- The corrected expenditure attached to a financial row
(`Cleaned_Expenditure_INR`, first component of `clean_financials`). -/
def mjpCleaned (r : MjpRow) : ℚ := (clean_financials r.expenditureActuals r.expenditureLakhs).1

/-- A row of the pre-aggregated financial table `src_mjp`
(`groupby(['Scheme_ID', 'District'])['Cleaned_Expenditure_INR'].sum()`). -/
structure MjpAggRow where
  schemeId : String
  district : String
  cleanedExp : ℚ
deriving DecidableEq, Repr

/-- The frame `src_mjp` (`main.py` line 153): sum of the corrected expenditure per
distinct `(Scheme_ID, District)` pair. -/
def mjpAgg (rows : List MjpRow) : List MjpAggRow :=
  (uniqueList (rows.map (fun r => (r.schemeCode, r.district)))).map
    (fun k => ⟨k.1, k.2,
      ((rows.filter (fun r => r.schemeCode == k.1 && r.district == k.2)).map mjpCleaned).sum⟩)

/-- A row of the `unified` frame before the fill pass: fields of columns that
were never created (their source absent) and `NaN` entries are both `none`,
which the fill pass and `row.get(..., default)` treat identically. -/
structure URow where
  schemeId : String
  district : Option String
  schemeName : Option String
  status : Option String
  completionDate : Option String
  physicalProgress : Option ℚ
  financialProgress : Option ℚ
  lastUpdated : Option String
  cleanedExp : Option ℚ
deriving DecidableEq, Repr

/-- The frame `src_imis` as the seed of the universal merge (`main.py` lines 145, 156). -/
def imisToU (i : ImisRow) : URow :=
  ⟨i.schemeId, i.district, i.schemeName, i.status, i.completionDate, none, none, none, none⟩

/-- The outer join with `src_zp` (`main.py` lines 158–160), including the
district fill `District.fillna(District_ZP)`. -/
def mergeZp (u : List URow) (zrows : List ZpRow) : List URow :=
  outerMerge (·.schemeId) (·.schemeId)
    (fun l z? => match z? with
      | some z =>
        { l with
          district := l.district.or z.district
          physicalProgress := z.physicalProgress
          financialProgress := z.financialProgress
          lastUpdated := z.lastUpdated }
      | none => l)
    (fun z => ⟨z.schemeId, z.district, none, none, none,
      z.physicalProgress, z.financialProgress, z.lastUpdated, none⟩)
    u zrows

/-- The outer join with `src_mjp` (`main.py` lines 161–165), including the
district fill from `District_MJP`. -/
def mergeMjp (u : List URow) (ms : List MjpAggRow) : List URow :=
  outerMerge (·.schemeId) (·.schemeId)
    (fun l m? => match m? with
      | some m =>
        { l with
          district := l.district.or (some m.district)
          cleanedExp := some m.cleanedExp }
      | none => l)
    (fun m => ⟨m.schemeId, some m.district, none, none, none, none, none, none,
      some m.cleanedExp⟩)
    u ms

/-- A row of `unified_schemes`: the unified frame after the fill pass, status
inference and scheme-name backfill. -/
structure SchemeRec where
  schemeId : String
  district : String
  schemeName : String
  status : String
  completionDate : String
  physicalProgress : ℚ
  financialProgress : ℚ
  lastUpdated : String
  cleanedExp : ℚ
  unifiedStatus : String
deriving DecidableEq, Repr

/-- The fill pass (`main.py` lines 168–171: numeric `fillna(0)`, textual
`fillna("-")`), `Unified_Status` (line 187) and the scheme-name backfill
(line 188) for one unified row. -/
def fillAndStatus (u : URow) : SchemeRec :=
  let district := u.district.getD "-"
  let status := u.status.getD "-"
  let phy := u.physicalProgress.getD 0
  let fin := u.financialProgress.getD 0
  let cexp := u.cleanedExp.getD 0
  let name0 := u.schemeName.getD "-"
  let name := if name0 = "-" ∨ name0 = "nan" ∨ name0 = "" then
      "Scheme " ++ u.schemeId
    else name0
  ⟨u.schemeId, district, name, status, u.completionDate.getD "-", phy, fin,
    u.lastUpdated.getD "-", cexp, determine_status status phy cexp⟩

/-- Join with the progress table when its normalized frame is nonempty
(`if not src_zp.empty`, `main.py` line 157; an absent source leaves `src_zp`
the empty frame). -/
def zpStep (u : List URow) : Option (List ZpRow) → List URow
  | some zrows => if zrows.isEmpty then u else mergeZp u zrows
  | none => u

/-- Join with the aggregated financial table when it is nonempty
(`if not src_mjp.empty`, `main.py` line 161). -/
def mjpStep (u : List URow) (mjpA : List MjpAggRow) : List URow :=
  if mjpA.isEmpty then u else mergeMjp u mjpA

/-- The universal outer join (`main.py` lines 156–165). -/
def unifiedPre (irows : List ImisRow) (zp? : Option (List ZpRow))
    (mjpA : List MjpAggRow) : List URow :=
  mjpStep (zpStep (irows.map imisToU) zp?) mjpA

/-- The table `unified_schemes` (`main.py` lines 156–189). -/
def buildSchemes (irows : List ImisRow) (zp? : Option (List ZpRow))
    (mjpA : List MjpAggRow) : List SchemeRec :=
  (unifiedPre irows zp? mjpA).map fillAndStatus

/-- A row of `unified_districts`. -/
structure DistrictRec where
  districtName : String
  samplesTested : ℚ
  contaminatedSamples : ℚ
  totalGrievances : ℚ
  contaminationRate : ℚ
deriving DecidableEq, Repr

/-- The per-district water-quality aggregation (`main.py` line 197):
`groupby('District_Name')[['Samples_Tested', 'Contaminated_Samples']].sum()`. -/
def gsdaAgg (rows : List GsdaRow) : List (String × ℚ × ℚ) :=
  (uniqueList (rows.map (·.districtName))).map (fun d =>
    let grp := rows.filter (fun r => r.districtName == d)
    (d, (grp.map (·.samplesTested)).sum, (grp.map (·.contaminatedSamples)).sum))

/-- The per-district grievance count (`main.py` line 206). -/
def pgrsAgg (rows : List PgrsRow) : List (String × ℚ) :=
  (uniqueList (rows.map (·.district))).map (fun d =>
    (d, ((rows.filter (fun r => r.district == d)).length : ℚ)))

/-- The `(Samples_Tested, Contaminated_Samples)` pair attached to one
district when the water-quality source is present: the left join with its
aggregate (unique keys, so a lookup), a missing match filled to 0 by
`fillna(0)` (`main.py` lines 195–198, 211).  The gsda-absent branch is not
modelled here: it raises `UnboundLocalError` (see `run_etl_pipeline`). -/
def districtTC (g : GsdaTable) (d : String) : ℚ × ℚ :=
  match (gsdaAgg g.rows).find? (fun a => a.1 == d) with
  | some a => a.2
  | none => (0, 0)

/-- The `Total_Grievances` value attached to one district (`main.py` lines
203–211). -/
def districtGrievances (dfs : Dfs) (d : String) : ℚ :=
  match dfs.pgrs with
  | some ps =>
    match (pgrsAgg ps).find? (fun a => a.1 == d) with
    | some a => a.2
    | none => 0
  | none => 0

/-- The table `unified_districts` (`main.py` lines 192–213): the distinct non-sentinel
districts of the unified schemes, left-joined with the water-quality and
grievance aggregates, `fillna(0)`, then `calc_rate`.  Reached only with the
water-quality source present (otherwise line 200 raises). -/
def buildDistricts (dfs : Dfs) (g : GsdaTable) (schemes : List SchemeRec) :
    List DistrictRec :=
  ((uniqueList (schemes.map (·.district))).filter (fun d => !(d == "-"))).map
    (fun d =>
      ⟨d, (districtTC g d).1, (districtTC g d).2, districtGrievances dfs d,
        calc_rate (districtTC g d).1 (districtTC g d).2⟩)

/-- A row of `unified_master`: a unified scheme row left-joined with its
district's aggregates (`main.py` lines 216–218); a scheme whose district has
no aggregate row gets 0 for the numeric aggregate columns
(`replace({np.nan: 0})`). -/
structure MasterRec where
  scheme : SchemeRec
  samplesTested : ℚ
  contaminatedSamples : ℚ
  totalGrievances : ℚ
  contaminationRate : ℚ
deriving DecidableEq, Repr

/-- The table `unified_master` (`main.py` lines 216–218); the district table has unique
keys, so the left join is a lookup. -/
def buildMaster (schemes : List SchemeRec) (districts : List DistrictRec) :
    List MasterRec :=
  schemes.map (fun s =>
    match districts.find? (fun d => d.districtName == s.district) with
    | some d => ⟨s, d.samplesTested, d.contaminatedSamples, d.totalGrievances,
        d.contaminationRate⟩
    | none => ⟨s, 0, 0, 0, 0⟩)

/-- The output structure of `run_etl_pipeline` (`main.py` lines 220–226). -/
structure Output where
  status : String
  anomalies : List Anomaly
  repoSchemes : List SchemeRec
  repoDistricts : List DistrictRec
  repoMaster : List MasterRec
deriving DecidableEq, Repr

/-- The aggregation `mjpAgg` lifted to the optional source (absent ⇒ `src_mjp` stays the
empty frame of `main.py` line 151). -/
def mjpAggOf : Option (List MjpRow) → List MjpAggRow
  | some rows => mjpAgg rows
  | none => []

/-- The output built once the Column Mismatch loop and the districts logic
have survived: the four anomaly blocks in execution order (naming →
sync/ghost → column → logical, `main.py` lines 102–142) and the three repo
tables. -/
def okOutputOf (dfs : Dfs) (g : GsdaTable) (irows : List ImisRow)
    (col : List Anomaly) : Output :=
  let schemes := buildSchemes irows dfs.zp (mjpAggOf dfs.mjp)
  let districts := buildDistricts dfs g schemes
  ⟨"success",
   namingAnoms dfs ++ syncGhostAnoms irows dfs.zp ++ col ++ logicalAnoms dfs.pgrs,
   schemes, districts, buildMaster schemes districts⟩

/-- The pipeline `run_etl_pipeline(dfs)` (`main.py` lines 99–226).  The absent mandatory
source raises `KeyError` at `dfs['imis_schemes']`; the Column Mismatch loop
may raise `ValueError` (nothing after it runs); then an absent water-quality
source raises `UnboundLocalError` at line 200, after the anomaly checks and
the scheme merge but before any output is returned. -/
def run_etl_pipeline (dfs : Dfs) : Except PipeError Output :=
  match dfs.imisSchemes with
  | none => .error .missingCriticalSource
  | some irows =>
    match columnAnomsOf dfs.mjp with
    | .error e => .error e
    | .ok col =>
      match dfs.gsda with
      | none => .error .unboundLocalError
      | some g => .ok (okOutputOf dfs g irows col)

/-- The unified scheme table of a run (`[]` when the run raised). -/
def pipelineSchemes (dfs : Dfs) : List SchemeRec :=
  match run_etl_pipeline dfs with
  | .ok o => o.repoSchemes
  | .error _ => []

/-- The unified district table of a run (`[]` when the run raised). -/
def pipelineDistricts (dfs : Dfs) : List DistrictRec :=
  match run_etl_pipeline dfs with
  | .ok o => o.repoDistricts
  | .error _ => []

/-- The anomaly list of a run (`[]` when the run raised). -/
def pipelineAnomalies (dfs : Dfs) : List Anomaly :=
  match run_etl_pipeline dfs with
  | .ok o => o.anomalies
  | .error _ => []

/-- The output of a successful run (a dummy when the run raised; used only to
name the output of runs proved successful). -/
def okOutput (dfs : Dfs) : Output :=
  match run_etl_pipeline dfs with
  | .ok o => o
  | .error _ => ⟨"", [], [], [], []⟩

/-- The status-inference rule as the specification words it, in its priority
order: a case-insensitive "completed" with zero physical progress is a data
conflict; else a sentinel/missing status is classified from physical progress
and then expenditure; else the original status text is returned unchanged.
(The sentinel/missing forms after the fill pass are `"-"` and a stringified
missing value `"nan"`, compared case-insensitively.) -/
def specUnifiedStatus (status : String) (phy cleanedExp : ℚ) : String :=
  if pyLower status = "completed" ∧ phy = 0 then "DATA CONFLICT"
  else if pyLower status = "-" ∨ pyLower status = "nan" then
    if phy > 90 then "Completed (ZP)"
    else if phy > 0 then "Ongoing (ZP)"
    else if cleanedExp > 0 then "Financial Only"
    else "Unknown"
  else status

/-- Every water-quality row has `0 ≤ Contaminated_Samples ≤ Samples_Tested`
(the data model calls both counts; the second inequality is the one the
source data does not guarantee). -/
def gsdaBoundsOk (dfs : Dfs) : Bool :=
  match dfs.gsda with
  | none => true
  | some g => g.rows.all (fun r =>
      decide (0 ≤ r.contaminatedSamples) && decide (r.contaminatedSamples ≤ r.samplesTested))

/-- Scheme identifiers are unique within the progress table and within the
aggregated financial table. -/
def sideKeysUnique (dfs : Dfs) : Bool :=
  (match dfs.zp with
   | none => true
   | some z => decide (z.map (·.schemeId)).Nodup) &&
  (match dfs.mjp with
   | none => true
   | some m => decide ((mjpAgg m).map (·.schemeId)).Nodup)

/-- The detector rank asserted by the ordering claim: every Naming Convention
anomaly before every Sync Conflict one, then Ghost Asset, then Column
Mismatch, then Logical Data Error. -/
def claimRank (a : Anomaly) : ℕ :=
  if a.issueType = "Naming Convention" then 0
  else if a.issueType = "Sync Conflict" then 1
  else if a.issueType = "Ghost Asset" then 2
  else if a.issueType = "Column Mismatch" then 3
  else 4

/-- The rank of the detector *block* that actually emits an anomaly: the Sync
Conflict and Ghost Asset checks share one row-by-row loop, so they share a
rank. -/
def detRank (a : Anomaly) : ℕ :=
  if a.issueType = "Naming Convention" then 0
  else if a.issueType = "Sync Conflict" ∨ a.issueType = "Ghost Asset" then 1
  else if a.issueType = "Column Mismatch" then 2
  else 3

/-! Concrete input tables used by counterexamples, failing inputs and
witnesses. -/

/-- Scheme master present; the financial report's sole row has an
`Expenditure_Actuals` value `float` cannot coerce. -/
def dfsC1 : Dfs :=
  { imisTap := false
    imisSchemes := some [⟨"I1", some "Pune", some "PWS Pune", some "Ongoing", none⟩]
    zp := some [⟨"I1", some "Pune", some 40, some 35, some "02/03/2024"⟩]
    mjp := some [⟨"MJP-2", "Pune", FinCell.bad, FinCell.num 12⟩]
    gsda := none
    pgrs := none }

/-- A financial report whose row is malformed only in `Expenditure_Actuals`. -/
def dfsC2 : Dfs :=
  { imisTap := false
    imisSchemes := some [⟨"S1", some "Thane", some "PWS S1", some "Ongoing", none⟩]
    zp := none
    mjp := some [⟨"MJP-9", "Thane", FinCell.bad, FinCell.num 7⟩]
    gsda := none
    pgrs := none }

/-- The scheme master used by the duplicate-key counterexample. -/
def imisC3 : List ImisRow := [⟨"S1", some "Thane", some "PWS", some "Ongoing", none⟩]

/-- A progress table holding the scheme-master identifier `"S1"` twice (the
water-quality source is present so that the run completes). -/
def dfsC3 : Dfs :=
  { imisTap := false
    imisSchemes := some imisC3
    zp := some [⟨"S1", some "Thane", some 10, some 10, none⟩,
                ⟨"S1", some "Thane", some 20, some 20, none⟩]
    mjp := none
    gsda := some ⟨true, [⟨"Maharashtra", "Thane", 5, 1⟩]⟩
    pgrs := none }

/-- A water-quality table reporting more contaminated samples than tested
samples for Thane. -/
def dfsC5 : Dfs :=
  { imisTap := false
    imisSchemes := some [⟨"S1", some "Thane", some "PWS", some "Ongoing", none⟩]
    zp := none, mjp := none
    gsda := some ⟨true, [⟨"Maharashtra", "Thane", 1, 2⟩]⟩
    pgrs := none }

/-- Scheme `"A1"` (first in join order) triggers only the Ghost Asset check,
scheme `"B2"` only the Sync Conflict check; the water-quality source is
present (with a canonical state name, so no naming anomaly) so that the run
completes. -/
def dfsC8 : Dfs :=
  { imisTap := false
    imisSchemes := some [⟨"A1", some "Thane", some "N1", some "Ongoing", none⟩,
                         ⟨"B2", some "Pune", some "N2", some "Completed", none⟩]
    zp := some [⟨"A1", some "Thane", some 0, some 50, some "10/01/2025"⟩,
                ⟨"B2", some "Pune", some 0, some 0, some "10/01/2025"⟩]
    mjp := none
    gsda := some ⟨true, [⟨"Maharashtra", "Thane", 2, 1⟩]⟩
    pgrs := none }

/-- A mapping without the mandatory scheme master. -/
def dfsNoImis : Dfs :=
  { imisTap := true, imisSchemes := none
    zp := none, mjp := none, gsda := none, pgrs := none }

/-- A mapping with only the mandatory scheme master (all five optional
sources absent); because `gsda` is absent, the real districts logic hits the
unbound local at `main.py` line 200. -/
def dfsImisOnly : Dfs :=
  { imisTap := false
    imisSchemes := some [⟨"S1", some "Thane", some "PWS", some "Ongoing", none⟩]
    zp := none, mjp := none, gsda := none, pgrs := none }

/-- All six sources present and well formed; `"B2"` carries the conflicting
completed-with-zero-progress pair. -/
def dfsW4 : Dfs :=
  { imisTap := true
    imisSchemes := some [⟨"A1", some "Thane", some "N1", some "Ongoing", none⟩,
                         ⟨"B2", some "Pune", some "N2", some "Completed", none⟩]
    zp := some [⟨"A1", some "Thane", some 0, some 50, some "10/01/2025"⟩,
                ⟨"B2", some "Pune", some 0, some 0, some "10/01/2025"⟩]
    mjp := some [⟨"MJP-1", "Thane", FinCell.num 50, FinCell.num 5000000⟩]
    gsda := some ⟨true, [⟨"Weird State", "Thane", 4, 1⟩]⟩
    pgrs := some [⟨"TKT-1", "Thane", "No Water", DateVal.day 10, DateVal.day 3⟩] }

/-- Unique keys everywhere: one scheme in each source (the water-quality
source present so that the run completes). -/
def dfsW3 : Dfs :=
  { imisTap := false
    imisSchemes := some [⟨"S1", some "Thane", some "PWS", some "Ongoing", none⟩,
                         ⟨"S2", some "Pune", some "PWS2", none, none⟩]
    zp := some [⟨"S1", some "Thane", some 10, some 10, none⟩]
    mjp := some [⟨"S1", "Thane", FinCell.num 200000, FinCell.num 2⟩]
    gsda := some ⟨true, [⟨"Maharashtra", "Thane", 5, 1⟩]⟩
    pgrs := none }

/-- A water-quality table within bounds (1 of 4 samples contaminated). -/
def dfsW5 : Dfs :=
  { imisTap := false
    imisSchemes := some [⟨"S1", some "Thane", some "PWS", some "Ongoing", none⟩]
    zp := none, mjp := none
    gsda := some ⟨true, [⟨"Maharashtra", "Thane", 4, 1⟩]⟩
    pgrs := none }

/-- The expected unified district row for `dfsW5`. -/
def d5W : DistrictRec := ⟨"Thane", 4, 1, 0, 25⟩

theorem run_ok_inv (dfs : Dfs) (out : Output)
    (h : run_etl_pipeline dfs = Except.ok out) :
    ∃ irows col g, dfs.imisSchemes = some irows ∧
      columnAnomsOf dfs.mjp = Except.ok col ∧ dfs.gsda = some g ∧
      out = okOutputOf dfs g irows col := by
  unfold run_etl_pipeline at h
  cases hi : dfs.imisSchemes with
  | none => rw [hi] at h; exact absurd h (by simp)
  | some irows =>
    rw [hi] at h
    cases hc : columnAnomsOf dfs.mjp with
    | error e => rw [hc] at h; exact absurd h (by simp)
    | ok col =>
      rw [hc] at h
      cases hg : dfs.gsda with
      | none => rw [hg] at h; exact absurd h (by simp)
      | some g =>
        rw [hg] at h
        exact ⟨irows, col, g, rfl, rfl, rfl, (Except.ok.injEq _ _).mp h |>.symm⟩

/-! ### The financial column corrector (claims C6, C7, C9) -/

/-- C6 (counterexample): a financial row whose `Expenditure_Actuals` is
missing does not yield `(0.0, 0.0)` — the missing field coerces to `0.0` and
the other value is kept. -/
theorem c6_missing_not_zero_pair :
    clean_financials FinCell.null (FinCell.num 50) = (0, 50) ∧
      ((0 : ℚ), (50 : ℚ)) ≠ ((0 : ℚ), (0 : ℚ)) := by decide

/-- C6 (amended): only a non-numeric (uncoercible) value in either field
yields the `(0.0, 0.0)` fallback; a missing field is instead coerced to `0.0`
and the swap heuristic then applies to the coerced pair. -/
theorem c6_fallback_only_on_noncoercible (a l : FinCell) :
    (a = FinCell.bad ∨ l = FinCell.bad → clean_financials a l = (0, 0)) ∧
      clean_financials FinCell.null l = clean_financials (FinCell.num 0) l := by
  cases a <;> cases l <;> simp [clean_financials, FinCell.coerce0]

/-- C6 witness: the amended statement at a concrete malformed row. -/
theorem c6_fallback_witness :
    clean_financials FinCell.bad (FinCell.num 5) = (0, 0) ∧
      clean_financials FinCell.null (FinCell.num 5) =
        clean_financials (FinCell.num 0) (FinCell.num 5) :=
  ⟨(c6_fallback_only_on_noncoercible FinCell.bad (FinCell.num 5)).1 (Or.inl rfl),
   (c6_fallback_only_on_noncoercible FinCell.bad (FinCell.num 5)).2⟩

/-- C7: the corrector is idempotent — feeding its output pair back through it
returns the pair unchanged. -/
theorem c7_corrector_idempotent (a l : FinCell) :
    clean_financials (FinCell.num (clean_financials a l).1)
      (FinCell.num (clean_financials a l).2) = clean_financials a l := by
  cases a <;> cases l <;>
    simp only [clean_financials, FinCell.coerce0] <;>
    split_ifs with h1 h2 <;> first
      | rfl
      | (exact absurd h2.1 (by linarith [h1.2]))

/-- C9: when both fields coerce (a missing field coercing to `0.0`), the
corrector's output is the coerced pair or its transposition — it never
invents a value. -/
theorem c9_output_is_permutation (a l : FinCell) (x y : ℚ)
    (hx : a.coerce0 = some x) (hy : l.coerce0 = some y) :
    clean_financials a l = (x, y) ∨ clean_financials a l = (y, x) := by
  unfold clean_financials
  rw [hx, hy]
  dsimp only
  split_ifs <;> simp

/-- C9 witness: a swapped row returns the transposed pair. -/
theorem c9_permutation_witness :
    clean_financials (FinCell.num 50) (FinCell.num 5000000) = (50, 5000000) ∨
      clean_financials (FinCell.num 50) (FinCell.num 5000000) = (5000000, 50) :=
  c9_output_is_permutation (FinCell.num 50) (FinCell.num 5000000) 50 5000000 rfl rfl

/-! ### The uncaught coercion in the Column Mismatch loop (claims C1, C2) -/

/-- C2: contrary to the design's no-throw rule for the checks, the Column
Mismatch loop applies `float` to the raw `Expenditure_Actuals` outside any
`try`, so one uncoercible value aborts the whole run. -/
theorem c2_column_mismatch_raises :
    run_etl_pipeline dfsC2 = Except.error PipeError.valueError := by rfl

/-- C1: contrary to the design, the absent mandatory source is not the only
fatal precondition.  A mapping holding only `imis_schemes` crashes in the
districts logic — the gsda-absent else branch (`main.py` line 200) assigns
into `unified_districts`, a local bound only in the gsda-present branch, and
raises `UnboundLocalError` — and an uncoercible `Expenditure_Actuals` value
raises `ValueError` at line 131.  Only the first conjunct matches the claim. -/
theorem c1_other_sources_not_optional :
    run_etl_pipeline dfsNoImis = Except.error PipeError.missingCriticalSource ∧
      run_etl_pipeline dfsImisOnly = Except.error PipeError.unboundLocalError ∧
      run_etl_pipeline dfsC1 = Except.error PipeError.valueError :=
  ⟨rfl, rfl, rfl⟩

/-! ### Unified status inference (claim C4) -/

/-- C4: every unified scheme row's `Unified_Status` is exactly the
specification's prioritized rule applied to the row's (filled) status text,
physical progress and cleaned expenditure. -/
theorem c4_unified_status (dfs : Dfs) (out : Output)
    (h : run_etl_pipeline dfs = Except.ok out) :
    ∀ r ∈ out.repoSchemes, r.unifiedStatus =
      specUnifiedStatus r.status r.physicalProgress r.cleanedExp := by
  obtain ⟨irows, col, g, _, _, _, hout⟩ := run_ok_inv dfs out h
  subst hout
  intro r hr
  obtain ⟨u, _, hu⟩ := List.mem_map.mp hr
  subst hu
  rfl

/-- C4 witness: the conflicting scheme `"B2"` of `dfsW4` is classified
`DATA CONFLICT` by both the code and the specification rule. -/
theorem c4_unified_status_witness :
    (⟨"B2", "Pune", "N2", "Completed", "-", 0, 0, "10/01/2025", 0,
        "DATA CONFLICT"⟩ : SchemeRec) ∈ pipelineSchemes dfsW4 ∧
      ("DATA CONFLICT" : String) = specUnifiedStatus "Completed" 0 0 := by
  have hrun : run_etl_pipeline dfsW4 = Except.ok (okOutput dfsW4) := by rfl
  have h := c4_unified_status dfsW4 (okOutput dfsW4) hrun
    ⟨"B2", "Pune", "N2", "Completed", "-", 0, 0, "10/01/2025", 0, "DATA CONFLICT"⟩
    (by decide)
  exact ⟨by decide, h⟩

/-! ### Counting scheme identifiers through the outer joins (claim C3) -/

theorem countP_key_translate {α : Type} (key : α → String) (l : List α) (k : String) :
    l.countP (fun a => key a == k) = (l.map key).count k := by
  unfold List.count
  rw [List.countP_map]
  rfl

theorem countP_key_le_one {α : Type} (key : α → String) (l : List α) (k : String)
    (h : (l.map key).Nodup) : l.countP (fun a => key a == k) ≤ 1 := by
  rw [countP_key_translate]
  exact List.nodup_iff_count_le_one.mp h k

theorem countP_key_eq_one_of_mem {α : Type} (key : α → String) (l : List α) (k : String)
    (h : (l.map key).Nodup) (hm : k ∈ l.map key) :
    l.countP (fun a => key a == k) = 1 := by
  rw [countP_key_translate]
  exact List.count_eq_one_of_mem h hm

theorem sum_map_indicator {α : Type} (p : α → Bool) (l : List α) :
    (l.map fun a => if p a then 1 else 0).sum = l.countP p := by
  induction l with
  | nil => rfl
  | cons x xs ih =>
    rw [List.map_cons, List.sum_cons, List.countP_cons, ih]
    by_cases h : p x <;> simp [h] <;> omega

/-- A full outer join on string keys keeps a key appearing once on the left
and at most once on the right exactly once. -/
theorem countP_outerMerge_eq_one {α β γ : Type} {kl : α → String} {kr : β → String}
    {mk : α → Option β → γ} {mkRight : β → γ} (kg : γ → String)
    (hmk : ∀ (a : α) (b? : Option β), kg (mk a b?) = kl a)
    (hmkR : ∀ b : β, kg (mkRight b) = kr b)
    (L : List α) (R : List β) (k : String)
    (hL : L.countP (fun a => kl a == k) = 1)
    (hR : R.countP (fun b => kr b == k) ≤ 1) :
    (outerMerge kl kr mk mkRight L R).countP (fun g => kg g == k) = 1 := by
  have hpos : 0 < L.countP (fun a => kl a == k) := by omega
  obtain ⟨a0, ha0L, ha0k⟩ := List.countP_pos_iff.mp hpos
  unfold outerMerge
  rw [List.countP_append]
  have hright :
      ((R.filter fun r => L.all fun l => !(kl l == kr r)).map mkRight).countP
        (fun g => kg g == k) = 0 := by
    rw [List.countP_map, List.countP_eq_zero]
    intro b hb hbk
    obtain ⟨_, hcond⟩ := List.mem_filter.mp hb
    have hklb : kl a0 = k := beq_iff_eq.mp ha0k
    have hkrb : kr b = k := by
      simpa only [Function.comp_apply, hmkR, beq_iff_eq] using hbk
    have h1 := List.all_eq_true.mp hcond a0 ha0L
    rw [hklb, hkrb] at h1
    simp at h1
  rw [hright, Nat.add_zero, List.countP_flatMap]
  refine Eq.trans (congrArg List.sum (List.map_congr_left ?_))
    (Eq.trans (sum_map_indicator _ _) hL)
  intro a _
  simp only [Function.comp_apply]
  cases hfil : R.filter (fun r => kr r == kl a) with
  | nil =>
    show List.countP (fun g => kg g == k) [mk a none] = _
    simp only [List.countP_cons, List.countP_nil, hmk]
    by_cases hak : (kl a == k) = true <;> simp [hak]
  | cons x xs =>
    show List.countP (fun g => kg g == k) ((x :: xs).map fun r => mk a (some r)) = _
    by_cases hak : (kl a == k) = true
    · rw [if_pos hak]
      have hak' : kl a = k := beq_iff_eq.mp hak
      have hall : ∀ g ∈ (x :: xs).map (fun r => mk a (some r)), (kg g == k) = true := by
        intro g hg
        obtain ⟨r, _, rfl⟩ := List.mem_map.mp hg
        rw [hmk, hak']
        exact beq_self_eq_true k
      have hlen1 : (x :: xs).length = R.countP (fun r => kr r == kl a) := by
        rw [List.countP_eq_length_filter, hfil]
      have hle : R.countP (fun r => kr r == kl a) ≤ 1 := by
        have hfun : (fun r => kr r == kl a) = (fun r => kr r == k) := by
          funext r; rw [hak']
        rw [hfun]
        exact hR
      rw [List.countP_eq_length.mpr hall, List.length_map]
      have hc := List.length_cons x xs
      omega
    · rw [if_neg hak, List.countP_eq_zero]
      intro g hg
      obtain ⟨r, _, rfl⟩ := List.mem_map.mp hg
      rw [hmk]
      simp [hak]

/-- The progress join preserves a unique scheme identifier. -/
theorem mergeZp_countP (u : List URow) (z : List ZpRow) (k : String)
    (hu : u.countP (fun r => r.schemeId == k) = 1)
    (hz : z.countP (fun r => r.schemeId == k) ≤ 1) :
    (mergeZp u z).countP (fun r => r.schemeId == k) = 1 := by
  unfold mergeZp
  apply countP_outerMerge_eq_one (fun r : URow => r.schemeId)
  · intro a b?; cases b? <;> rfl
  · intro b; rfl
  · exact hu
  · exact hz

/-- The financial join preserves a unique scheme identifier. -/
theorem mergeMjp_countP (u : List URow) (m : List MjpAggRow) (k : String)
    (hu : u.countP (fun r => r.schemeId == k) = 1)
    (hm : m.countP (fun r => r.schemeId == k) ≤ 1) :
    (mergeMjp u m).countP (fun r => r.schemeId == k) = 1 := by
  unfold mergeMjp
  apply countP_outerMerge_eq_one (fun r : URow => r.schemeId)
  · intro a b?; cases b? <;> rfl
  · intro b; rfl
  · exact hu
  · exact hm

/-- A unique scheme identifier survives the whole merge-and-fill chain with
count one. -/
theorem buildSchemes_countP (irows : List ImisRow) (zp? : Option (List ZpRow))
    (mjpA : List MjpAggRow) (id : String)
    (h0 : (irows.map (·.schemeId)).Nodup) (hid : id ∈ irows.map (·.schemeId))
    (hz : ∀ zrows, zp? = some zrows → (zrows.map (·.schemeId)).Nodup)
    (hm : (mjpA.map (·.schemeId)).Nodup) :
    (buildSchemes irows zp? mjpA).countP (fun s => s.schemeId == id) = 1 := by
  unfold buildSchemes unifiedPre
  rw [List.countP_map]
  have h_u0 : (irows.map imisToU).countP (fun u => u.schemeId == id) = 1 := by
    rw [List.countP_map]
    exact countP_key_eq_one_of_mem (·.schemeId) irows id h0 hid
  have h_u1 : (zpStep (irows.map imisToU) zp?).countP (fun u => u.schemeId == id) = 1 := by
    cases zp? with
    | none => exact h_u0
    | some zrows =>
      simp only [zpStep]
      by_cases he : zrows.isEmpty
      · rw [if_pos he]; exact h_u0
      · rw [if_neg he]
        exact mergeZp_countP _ _ _ h_u0 (countP_key_le_one _ _ _ (hz zrows rfl))
  simp only [mjpStep]
  by_cases hme : mjpA.isEmpty
  · rw [if_pos hme]; exact h_u1
  · rw [if_neg hme]
    exact mergeMjp_countP _ _ _ h_u1 (countP_key_le_one _ _ _ hm)

/-- C3 (counterexample): with the scheme identifier `"S1"` occurring twice in
the progress table, `"S1"` appears twice, not once, in the unified scheme
output. -/
theorem c3_duplicate_keys_duplicate_output :
    dfsC3.imisSchemes = some imisC3 ∧ "S1" ∈ imisC3.map (·.schemeId) ∧
      (pipelineSchemes dfsC3).countP (fun s => s.schemeId == "S1") = 2 :=
  ⟨rfl, by decide, by decide⟩

/-- C3 (amended): when scheme identifiers are unique within the scheme
master, within the progress table and within the aggregated financial table,
every scheme-master identifier appears exactly once in the unified scheme
output. -/
theorem c3_unique_ids (dfs : Dfs) (out : Output) (irows : List ImisRow)
    (hrun : run_etl_pipeline dfs = Except.ok out)
    (hi : dfs.imisSchemes = some irows)
    (h0 : (irows.map (·.schemeId)).Nodup)
    (hk : sideKeysUnique dfs = true) :
    ∀ id ∈ irows.map (·.schemeId),
      out.repoSchemes.countP (fun s => s.schemeId == id) = 1 := by
  intro id hid
  obtain ⟨irows', col, g, hi', hcol, hg, hout⟩ := run_ok_inv dfs out hrun
  rw [hi] at hi'
  injection hi' with hi'
  subst hi'
  subst hout
  unfold sideKeysUnique at hk
  rw [Bool.and_eq_true] at hk
  have hz : ∀ zrows, dfs.zp = some zrows → (zrows.map (·.schemeId)).Nodup := by
    intro zrows hzr
    have := hk.1
    rw [hzr] at this
    exact of_decide_eq_true this
  have hm : ((mjpAggOf dfs.mjp).map (·.schemeId)).Nodup := by
    cases hmj : dfs.mjp with
    | none => simp [mjpAggOf]
    | some m =>
      have := hk.2
      rw [hmj] at this
      exact of_decide_eq_true this
  exact buildSchemes_countP irows dfs.zp (mjpAggOf dfs.mjp) id h0 hid hz hm

/-- C3 witness: with unique keys in every source, `"S1"` appears exactly once
in the unified output of `dfsW3`. -/
theorem c3_unique_ids_witness :
    (pipelineSchemes dfsW3).countP (fun s => s.schemeId == "S1") = 1 := by
  have hrun : run_etl_pipeline dfsW3 = Except.ok (okOutput dfsW3) := by rfl
  have h := c3_unique_ids dfsW3 (okOutput dfsW3)
    [⟨"S1", some "Thane", some "PWS", some "Ongoing", none⟩,
     ⟨"S2", some "Pune", some "PWS2", none, none⟩]
    hrun rfl (by decide) (by decide) "S1" (by decide)
  exact h

/-! ### Contamination rates (claim C5) -/

theorem round_monotone {x y : ℚ} (h : x ≤ y) : round x ≤ round y := by
  rw [round_eq, round_eq]
  exact Int.floor_le_floor (by linarith)

/-- The rate `calc_rate` stays within `[0, 100]` whenever the summed counts satisfy
`0 ≤ contaminated ≤ tested`. -/
theorem calc_rate_bounds (t c : ℚ) (h0 : 0 ≤ c) (h1 : c ≤ t) :
    0 ≤ calc_rate t c ∧ calc_rate t c ≤ 100 := by
  unfold calc_rate
  split_ifs with ht
  · have hx0 : 0 ≤ c / t * 100 :=
      mul_nonneg (div_nonneg h0 (le_of_lt ht)) (by norm_num)
    have hx100 : c / t * 100 ≤ 100 := by
      have hdiv : c / t ≤ 1 := (div_le_one ht).mpr h1
      nlinarith
    unfold pyRound2
    constructor
    · have hr0 : (0 : ℤ) ≤ round (c / t * 100 * 100) := by
        have := round_monotone (show (0 : ℚ) ≤ c / t * 100 * 100 by nlinarith)
        rwa [round_zero] at this
      have hq : (0 : ℚ) ≤ ((round (c / t * 100 * 100) : ℤ) : ℚ) := by exact_mod_cast hr0
      exact div_nonneg hq (by norm_num)
    · have hr1 : round (c / t * 100 * 100) ≤ (10000 : ℤ) := by
        have := round_monotone (show c / t * 100 * 100 ≤ (10000 : ℚ) by nlinarith)
        rwa [show ((10000 : ℚ)) = ((10000 : ℤ) : ℚ) by norm_num, round_intCast] at this
      have hq : ((round (c / t * 100 * 100) : ℤ) : ℚ) ≤ 10000 := by exact_mod_cast hr1
      rw [div_le_iff (show (0 : ℚ) < 100 by norm_num)]
      linarith
  · exact ⟨le_refl 0, by norm_num⟩

/-- Under the count bounds on the water-quality rows, every per-district
aggregate pair satisfies `0 ≤ contaminated ≤ tested`. -/
theorem districtTC_bounds (g : GsdaTable)
    (hb : g.rows.all (fun r => decide (0 ≤ r.contaminatedSamples) &&
      decide (r.contaminatedSamples ≤ r.samplesTested)) = true) (d : String) :
    0 ≤ (districtTC g d).2 ∧ (districtTC g d).2 ≤ (districtTC g d).1 := by
  cases hfind : (gsdaAgg g.rows).find? (fun a => a.1 == d) with
  | none =>
    have hz : districtTC g d = (0, 0) := by
      simp only [districtTC, hfind]
    rw [hz]
    norm_num
  | some a =>
    have hTC : districtTC g d = a.2 := by
      simp only [districtTC, hfind]
    rw [hTC]
    have hmem := List.mem_of_find?_eq_some hfind
    unfold gsdaAgg at hmem
    obtain ⟨dd, _, rfl⟩ := List.mem_map.mp hmem
    dsimp only
    constructor
    · apply List.sum_nonneg
      intro x hx
      obtain ⟨r, hr, rfl⟩ := List.mem_map.mp hx
      have hrmem := (List.mem_filter.mp hr).1
      have hball := List.all_eq_true.mp hb r hrmem
      rw [Bool.and_eq_true] at hball
      exact of_decide_eq_true hball.1
    · apply List.sum_le_sum
      intro r hr
      have hrmem := (List.mem_filter.mp hr).1
      have hball := List.all_eq_true.mp hb r hrmem
      rw [Bool.and_eq_true] at hball
      exact of_decide_eq_true hball.2

/-- C5 (amended): every unified district row's rate is `calc_rate` of its
(summed) counts, and a zero sample count yields rate 0 with no division
error — both unconditionally; under the count invariant
`0 ≤ contaminated ≤ tested` on the water-quality rows (which ingestion does
not guarantee) the rate additionally lies in `[0, 100]`. -/
theorem c5_rate_formula_and_bounds (dfs : Dfs) (out : Output)
    (hrun : run_etl_pipeline dfs = Except.ok out) :
    ∀ d ∈ out.repoDistricts,
      d.contaminationRate = calc_rate d.samplesTested d.contaminatedSamples ∧
      (d.samplesTested = 0 → d.contaminationRate = 0) ∧
      (gsdaBoundsOk dfs = true →
        0 ≤ d.contaminationRate ∧ d.contaminationRate ≤ 100) := by
  obtain ⟨irows, col, g, _, _, hg, hout⟩ := run_ok_inv dfs out hrun
  subst hout
  intro d hd
  have hd' : d ∈ buildDistricts dfs g (buildSchemes irows dfs.zp (mjpAggOf dfs.mjp)) := hd
  unfold buildDistricts at hd'
  obtain ⟨name, _, rfl⟩ := List.mem_map.mp hd'
  refine ⟨rfl, ?_, ?_⟩
  · intro h0
    show calc_rate (districtTC g name).1 (districtTC g name).2 = 0
    have h0' : (districtTC g name).1 = 0 := h0
    rw [calc_rate, h0']
    norm_num
  · intro hb
    unfold gsdaBoundsOk at hb
    rw [hg] at hb
    have hbound := districtTC_bounds g hb name
    exact calc_rate_bounds (districtTC g name).1 (districtTC g name).2
      hbound.1 hbound.2

/-- C5 (counterexample): with 2 contaminated among 1 tested sample in the
input (which ingestion does not forbid), the unified district output carries
a contamination rate of 200. -/
theorem c5_rate_can_exceed_100 :
    ¬ (∀ d ∈ pipelineDistricts dfsC5,
        d.samplesTested > 0 → d.contaminationRate ≤ 100) := by
  intro h
  have heq : pipelineDistricts dfsC5 = [⟨"Thane", 1, 2, 0, 200⟩] := by
    simp only [pipelineDistricts, run_etl_pipeline, okOutputOf, columnAnomsOf, buildSchemes,
      buildDistricts, districtTC, districtGrievances, unifiedPre, zpStep, mjpStep, imisToU,
      fillAndStatus, determine_status, pyLower, uniqueList, uniqAux, gsdaAgg, mjpAggOf, dfsC5,
      namingAnoms, syncGhostAnoms, logicalAnoms]
    simp [calc_rate, pyRound2, round_eq]
    norm_num
  have h2 := h ⟨"Thane", 1, 2, 0, 200⟩ (by rw [heq]; exact List.mem_singleton_self _)
  norm_num at h2

/-- C5 witness: a within-bounds water-quality table yields the rounded rate
25 for Thane, inside `[0, 100]`. -/
theorem c5_rate_witness :
    d5W ∈ pipelineDistricts dfsW5 ∧
      d5W.contaminationRate = calc_rate d5W.samplesTested d5W.contaminatedSamples ∧
      0 ≤ d5W.contaminationRate ∧ d5W.contaminationRate ≤ 100 := by
  have hrun : run_etl_pipeline dfsW5 = Except.ok (okOutput dfsW5) := by rfl
  have heq : pipelineDistricts dfsW5 = [d5W] := by
    simp only [pipelineDistricts, run_etl_pipeline, okOutputOf, columnAnomsOf, buildSchemes,
      buildDistricts, districtTC, districtGrievances, unifiedPre, zpStep, mjpStep, imisToU,
      fillAndStatus, determine_status, pyLower, uniqueList, uniqAux, gsdaAgg, mjpAggOf, dfsW5,
      namingAnoms, syncGhostAnoms, logicalAnoms, d5W]
    simp [calc_rate, pyRound2, round_eq]
    norm_num
  have hmem : d5W ∈ (okOutput dfsW5).repoDistricts := by
    have hsame : (okOutput dfsW5).repoDistricts = pipelineDistricts dfsW5 := rfl
    rw [hsame, heq]
    exact List.mem_singleton_self _
  have h := c5_rate_formula_and_bounds dfsW5 (okOutput dfsW5) hrun d5W hmem
  have hbnd := h.2.2 (by decide)
  exact ⟨by rw [heq]; exact List.mem_singleton_self _, h.1, hbnd.1, hbnd.2⟩

/-! ### The issue type emitted by each detector block (claims C8, C10) -/

theorem namingAnoms_types (dfs : Dfs) :
    ∀ a ∈ namingAnoms dfs, a.issueType = "Naming Convention" := by
  intro a ha
  cases hg : dfs.gsda with
  | none =>
    simp only [namingAnoms, hg] at ha
    exact absurd ha (List.not_mem_nil a)
  | some g =>
    simp only [namingAnoms, hg] at ha
    by_cases hc : g.hasStateName = true
    · rw [if_pos hc] at ha
      obtain ⟨r, _, rfl⟩ := List.mem_map.mp ha
      rfl
    · rw [if_neg hc] at ha
      exact absurd ha (List.not_mem_nil a)

theorem syncGhostRow_types (r : CheckRow) :
    ∀ a ∈ syncGhostRow r, a.issueType = "Sync Conflict" ∨ a.issueType = "Ghost Asset" := by
  intro a ha
  simp only [syncGhostRow, List.mem_append] at ha
  rcases ha with h | h
  · left
    split at h
    · rw [List.mem_singleton] at h
      rw [h]
    · exact absurd h (List.not_mem_nil a)
  · right
    split at h
    · rw [List.mem_singleton] at h
      rw [h]
    · exact absurd h (List.not_mem_nil a)

theorem syncGhostAnoms_types (irows : List ImisRow) (zp? : Option (List ZpRow)) :
    ∀ a ∈ syncGhostAnoms irows zp?,
      a.issueType = "Sync Conflict" ∨ a.issueType = "Ghost Asset" := by
  intro a ha
  cases zp? with
  | none => exact absurd ha (List.not_mem_nil a)
  | some zrows =>
    obtain ⟨r, _, hmem⟩ := List.mem_flatMap.mp ha
    exact syncGhostRow_types r a hmem

theorem columnMismatchRow_types (r : MjpRow) (a : Anomaly)
    (h : columnMismatchRow r = Except.ok (some a)) : a.issueType = "Column Mismatch" := by
  cases hact : r.expenditureActuals with
  | bad => simp [columnMismatchRow, hact] at h
  | null => simp [columnMismatchRow, hact] at h
  | num q =>
    simp only [columnMismatchRow, hact] at h
    split at h
    · simp only [Except.ok.injEq, Option.some.injEq] at h
      rw [← h]
    · simp at h

theorem columnAnoms_types (rows : List MjpRow) (col : List Anomaly)
    (h : columnAnoms rows = Except.ok col) :
    ∀ a ∈ col, a.issueType = "Column Mismatch" := by
  induction rows generalizing col with
  | nil =>
    simp only [columnAnoms, Except.ok.injEq] at h
    subst h
    intro a ha
    exact absurd ha (List.not_mem_nil a)
  | cons r rs ih =>
    simp only [columnAnoms] at h
    cases hr : columnMismatchRow r with
    | error e =>
      simp only [hr] at h
      exact Except.noConfusion h
    | ok a? =>
      simp only [hr] at h
      cases hrest : columnAnoms rs with
      | error e =>
        simp only [hrest] at h
        exact Except.noConfusion h
      | ok rest =>
        simp only [hrest, Except.ok.injEq] at h
        intro a ha
        rw [← h] at ha
        cases a? with
        | none => exact ih rest hrest a ha
        | some a0 =>
          rcases List.mem_cons.mp ha with h1 | h2
          · rw [h1]
            exact columnMismatchRow_types r a0 hr
          · exact ih rest hrest a h2

theorem columnAnomsOf_types (mjp? : Option (List MjpRow)) (col : List Anomaly)
    (h : columnAnomsOf mjp? = Except.ok col) :
    ∀ a ∈ col, a.issueType = "Column Mismatch" := by
  cases mjp? with
  | none =>
    simp only [columnAnomsOf, Except.ok.injEq] at h
    subst h
    intro a ha
    exact absurd ha (List.not_mem_nil a)
  | some rows => exact columnAnoms_types rows col h

theorem ite_some_inv {c : Prop} [Decidable c] {x a : Anomaly}
    (h : (if c then some x else none) = some a) : a = x := by
  split at h
  · exact ((Option.some.injEq _ _).mp h).symm
  · exact Option.noConfusion h

theorem logicalAnoms_types (pgrs? : Option (List PgrsRow)) :
    ∀ a ∈ logicalAnoms pgrs?, a.issueType = "Logical Data Error" := by
  intro a ha
  cases pgrs? with
  | none => exact absurd ha (List.not_mem_nil a)
  | some rows =>
    obtain ⟨r, _, hr⟩ := List.mem_filterMap.mp ha
    cases hdr : r.dateResolved <;> cases hdd : r.dateReported <;>
        simp only [logicalRow, hdr, hdd] at hr <;>
      first
        | exact Option.noConfusion hr
        | rw [ite_some_inv hr]

/-! ### Anomaly ordering (claim C8) -/

theorem detRank_naming (a : Anomaly) (h : a.issueType = "Naming Convention") :
    detRank a = 0 := by
  unfold detRank
  rw [h]
  decide

theorem detRank_syncghost (a : Anomaly)
    (h : a.issueType = "Sync Conflict" ∨ a.issueType = "Ghost Asset") :
    detRank a = 1 := by
  unfold detRank
  rcases h with h | h <;> rw [h] <;> decide

theorem detRank_column (a : Anomaly) (h : a.issueType = "Column Mismatch") :
    detRank a = 2 := by
  unfold detRank
  rw [h]
  decide

theorem detRank_logical (a : Anomaly) (h : a.issueType = "Logical Data Error") :
    detRank a = 3 := by
  unfold detRank
  rw [h]
  decide

theorem pairwise_rank_const (f : Anomaly → ℕ) (l : List Anomaly) (c : ℕ)
    (h : ∀ a ∈ l, f a = c) : List.Pairwise (fun a b => f a ≤ f b) l :=
  List.pairwise_of_forall_mem_list (fun a ha b hb => by rw [h a ha, h b hb])

/-- C8 (counterexample): scheme `"A1"` fires only the Ghost Asset check and
scheme `"B2"` only the Sync Conflict check, so a Ghost Asset anomaly precedes
a Sync Conflict anomaly in the output list. -/
theorem c8_ghost_precedes_sync :
    (pipelineAnomalies dfsC8).map (·.issueType) = ["Ghost Asset", "Sync Conflict"] ∧
      ¬ List.Pairwise (fun a b => claimRank a ≤ claimRank b) (pipelineAnomalies dfsC8) := by
  decide

/-- C8 (amended): the anomaly list is ordered by detector *block*: Naming
Convention anomalies first, then the row-by-row Sync Conflict / Ghost Asset
scan (whose two kinds interleave), then Column Mismatch, then Logical Data
Error; no deduplication or priority sort. -/
theorem c8_blocks_ordered (dfs : Dfs) (out : Output)
    (hrun : run_etl_pipeline dfs = Except.ok out) :
    List.Pairwise (fun a b => detRank a ≤ detRank b) out.anomalies := by
  obtain ⟨irows, col, g, _, hcol, hg, hout⟩ := run_ok_inv dfs out hrun
  subst hout
  have rn : ∀ a ∈ namingAnoms dfs, detRank a = 0 :=
    fun a ha => detRank_naming a (namingAnoms_types dfs a ha)
  have rs : ∀ a ∈ syncGhostAnoms irows dfs.zp, detRank a = 1 :=
    fun a ha => detRank_syncghost a (syncGhostAnoms_types irows dfs.zp a ha)
  have rc : ∀ a ∈ col, detRank a = 2 :=
    fun a ha => detRank_column a (columnAnomsOf_types dfs.mjp col hcol a ha)
  have rl : ∀ a ∈ logicalAnoms dfs.pgrs, detRank a = 3 :=
    fun a ha => detRank_logical a (logicalAnoms_types dfs.pgrs a ha)
  show List.Pairwise (fun a b => detRank a ≤ detRank b)
    (namingAnoms dfs ++ syncGhostAnoms irows dfs.zp ++ col ++ logicalAnoms dfs.pgrs)
  rw [List.pairwise_append]
  refine ⟨?_, pairwise_rank_const _ _ 3 rl, ?_⟩
  · rw [List.pairwise_append]
    refine ⟨?_, pairwise_rank_const _ _ 2 rc, ?_⟩
    · rw [List.pairwise_append]
      refine ⟨pairwise_rank_const _ _ 0 rn, pairwise_rank_const _ _ 1 rs, ?_⟩
      intro a ha b hb
      rw [rn a ha, rs b hb]
      omega
    · intro a ha b hb
      rw [List.mem_append] at ha
      rw [rc b hb]
      rcases ha with ha | ha
      · rw [rn a ha]; omega
      · rw [rs a ha]; omega
  · intro a ha b hb
    rw [List.mem_append, List.mem_append] at ha
    rw [rl b hb]
    rcases ha with (ha | ha) | ha
    · rw [rn a ha]; omega
    · rw [rs a ha]; omega
    · rw [rc a ha]; omega

/-- C8 witness: an input exercising all four detector blocks satisfies the
block ordering. -/
theorem c8_blocks_ordered_witness :
    List.Pairwise (fun a b => detRank a ≤ detRank b) (okOutput dfsW4).anomalies :=
  c8_blocks_ordered dfsW4 (okOutput dfsW4) (by rfl)

/-! ### Skipping the Naming Convention check (claim C10) -/

end JJM
